import Mathlib

/-!
Verification of the walkie-talkie voice-assistant backend.

The embedding models `agent.py` (class `VoiceAssistant`) and the relevant
routes of `server.py`. External services (Deepgram transcription, the
OpenAI chat completion, Deepgram TTS) are opaque request/response
functions, so their outputs (`transcript`, `reply`) are oracle inputs to
the operations. The audio directory on disk is modelled as the set of
file paths currently present (`audio_files : List String`); writing a
file inserts its path, `os.remove` filters it out, and `shutil.rmtree`
followed by `os.makedirs` empties it. The OpenAI client objects are
modelled by the API key they were constructed from, so the custom client
slot is an `Option String`.
-/

/-- A role/content message dict as stored in `conversation_history` and
sent to the chat-completion endpoint. -/
structure Message where
  role : String
  content : String
deriving DecidableEq, Repr

/-- One conversation turn as stored in `self.conversations`
(`conversation_data` in `process_conversation`). -/
structure Turn where
  id : Nat
  user_text : String
  ai_text : String
  input_audio : String
  output_audio : String
deriving DecidableEq, Repr

/-- The mutable state of `VoiceAssistant`, together with the contents of
the audio directory on disk. -/
structure VoiceAssistant where
  memory_size : Nat
  conversation_history : List Message
  conversations : List Turn
  use_context : Bool
  is_custom : Bool
  custom_openai_client : Option String
  audio_files : List String
deriving DecidableEq, Repr

/-- The global `assistant = VoiceAssistant(memory_size=5)` with an empty
audio directory. -/
def initialAssistant : VoiceAssistant :=
  { memory_size := 5
    conversation_history := []
    conversations := []
    use_context := false
    is_custom := false
    custom_openai_client := none
    audio_files := [] }

/-- Writing a file creates its path on disk (overwriting keeps the path
present). -/
def fileWrite (p : String) (files : List String) : List String :=
  if p ∈ files then files else p :: files

/-- `os.remove` guarded by `os.path.exists`: the path is gone afterwards
either way. -/
def fileRemove (p : String) (files : List String) : List String :=
  files.filter (fun f => f ≠ p)

/-- Python truthiness of the `api_key` argument: `if api_key:` is true
exactly for a present, non-empty string. -/
def pyTruthy : Option String → Bool
  | none => false
  | some k => k ≠ ""

/-- Python `l[-n:]`: the last `n` elements, except that `l[-0:]` is the
whole list. -/
def takeLast {α : Type} (n : Nat) (l : List α) : List α :=
  if n = 0 then l else l.drop (l.length - n)

/-- The `while len(self.conversations) > self.memory_size` loop of
`_trim_conversations`: pop the front turn and delete its two audio
files, until the window fits. Returns the remaining turns and the
remaining disk contents. -/
def trimLoop (ms : Nat) : List Turn → List String → List Turn × List String
  | [], files => ([], files)
  | removed :: rest, files =>
    if rest.length + 1 > ms then
      trimLoop ms rest (fileRemove removed.output_audio (fileRemove removed.input_audio files))
    else (removed :: rest, files)

/-- `VoiceAssistant._trim_conversations`: evict oldest turns past
`memory_size` (deleting their audio files), then cut the OpenAI message
history to its last `memory_size * 2` entries. -/
def trim_conversations (s : VoiceAssistant) : VoiceAssistant :=
  let r := trimLoop s.memory_size s.conversations s.audio_files
  let max_messages := s.memory_size * 2
  let hist :=
    if s.conversation_history.length > max_messages then
      takeLast max_messages s.conversation_history
    else s.conversation_history
  { s with conversations := r.1, audio_files := r.2, conversation_history := hist }

/-- `VoiceAssistant.set_memory_size(size, is_custom, api_key)`. -/
def set_memory_size (s : VoiceAssistant) (size : Nat) (is_custom : Bool)
    (api_key : Option String) : VoiceAssistant :=
  let s1 := { s with memory_size := size, is_custom := is_custom }
  let s2 :=
    if pyTruthy api_key then { s1 with custom_openai_client := some (api_key.getD "") }
    else if is_custom then s1
    else { s1 with custom_openai_client := none }
  trim_conversations s2

/-- `VoiceAssistant.reset_custom_key`. -/
def reset_custom_key (s : VoiceAssistant) : VoiceAssistant :=
  { s with custom_openai_client := none, is_custom := false }

/-- `VoiceAssistant.set_use_context`. -/
def set_use_context (s : VoiceAssistant) (b : Bool) : VoiceAssistant :=
  { s with use_context := b }

/-- The fixed system message of `get_ai_response`. -/
def systemPrompt : Message :=
  { role := "system"
    content := "You are a helpful, concise voice assistant. Keep answers short (under 2 sentences) for spoken audio." }

/-- `VoiceAssistant.get_ai_response(text)`, with the LLM reply supplied
as an oracle. Returns the new state and the exact `messages` list sent
to the chat-completion call. -/
def get_ai_response (s : VoiceAssistant) (text reply : String) :
    VoiceAssistant × List Message :=
  let messages :=
    [systemPrompt] ++ (if s.use_context then s.conversation_history else [])
      ++ [{ role := "user", content := text }]
  let hist0 := s.conversation_history
    ++ [{ role := "user", content := text }, { role := "assistant", content := reply }]
  let max_messages := s.memory_size * 2
  let hist := if hist0.length > max_messages then takeLast max_messages hist0 else hist0
  ({ s with conversation_history := hist }, messages)

/-- The `if not user_text.strip():` test of `process_conversation`:
Python `str.strip()` yields the empty (falsy) string exactly when every
character of the transcript is whitespace, including the empty
transcript. -/
def stripEmpty (t : String) : Bool :=
  t.data.all Char.isWhitespace

/-- `os.path.join(AUDIO_DIR, f"input_\x7btimestamp\x7d.wav")`. -/
def inputPath (timestamp : Nat) : String :=
  "audio_files/input_" ++ toString timestamp ++ ".wav"

/-- `os.path.join(AUDIO_DIR, f"output_\x7btimestamp\x7d.mp3")`. -/
def outputPath (timestamp : Nat) : String :=
  "audio_files/output_" ++ toString timestamp ++ ".mp3"

/-- The `for i, conv in enumerate(...)` loop of
`_renumber_conversations`, numbering from `i`. -/
def renumberFrom : Nat → List Turn → List Turn
  | _, [] => []
  | i, c :: cs => { c with id := i + 1 } :: renumberFrom (i + 1) cs

/-- `VoiceAssistant._renumber_conversations`. -/
def renumber_conversations (s : VoiceAssistant) : VoiceAssistant :=
  { s with conversations := renumberFrom 0 s.conversations }

/-- `VoiceAssistant.clear_all`: wipe both lists and empty the audio
directory (`shutil.rmtree` + `os.makedirs`). -/
def clear_all (s : VoiceAssistant) : VoiceAssistant :=
  { s with conversation_history := [], conversations := [], audio_files := [] }

/-- `VoiceAssistant.process_conversation(audio_data)`, with the
transcript and the LLM reply as oracles and the filename timestamp as a
parameter. Returns the new state and either the
`\x7b"error": "No speech detected"\x7d` dict or the stored turn.
The returned dict is the same object that was appended, so after
`_renumber_conversations` it carries the renumbered id whenever it is
still in the window (it is the last element); `getLastD` returns the
un-renumbered record in the degenerate `memory_size = 0` case where the
fresh turn itself is evicted. -/
def process_conversation (s : VoiceAssistant) (timestamp : Nat)
    (transcript reply : String) : VoiceAssistant × Except String Turn :=
  let conversation_id := s.conversations.length + 1
  let input_path := inputPath timestamp
  let output_path := outputPath timestamp
  let s0 := { s with audio_files := fileWrite input_path s.audio_files }
  if stripEmpty transcript then
    ({ s0 with audio_files := fileRemove input_path s0.audio_files },
      Except.error "No speech detected")
  else
    let s1 := (get_ai_response s0 transcript reply).1
    let s2 := { s1 with audio_files := fileWrite output_path s1.audio_files }
    let turn : Turn :=
      { id := conversation_id, user_text := transcript, ai_text := reply,
        input_audio := input_path, output_audio := output_path }
    let s3 := { s2 with conversations := s2.conversations ++ [turn] }
    let s4 := renumber_conversations (trim_conversations s3)
    (s4, Except.ok (s4.conversations.getLastD turn))

/-- The state-mutating operations reachable through the API, with the
oracle inputs of `process_conversation` as constructor arguments. -/
inductive Op where
  | process (timestamp : Nat) (transcript reply : String)
  | setMemorySize (size : Nat) (is_custom : Bool) (api_key : Option String)
  | setUseContext (b : Bool)
  | clearAll
deriving DecidableEq, Repr

/-- Apply one operation to the session state. -/
def applyOp (s : VoiceAssistant) : Op → VoiceAssistant
  | Op.process t tr r => (process_conversation s t tr r).1
  | Op.setMemorySize sz ic k => set_memory_size s sz ic k
  | Op.setUseContext b => set_use_context s b
  | Op.clearAll => clear_all s

/-- Run a sequence of operations from a state. -/
def runOps (s : VoiceAssistant) (ops : List Op) : VoiceAssistant :=
  ops.foldl applyOp s

/-- An operation as the HTTP layer admits it: `/api/memory-size`
validates the size (custom sizes lie in 1..100, presets in
\x7b5, 10, 20\x7d), so every size that reaches `set_memory_size` is
positive. -/
def validOp : Op → Bool
  | Op.setMemorySize sz _ _ => 1 ≤ sz
  | _ => true

/-- The body of a `/api/memory-size` request (`MemorySizeRequest`). -/
structure MemorySizeRequest where
  size : Int
  is_custom : Bool := false
  api_key : Option String := none
deriving DecidableEq, Repr

/-- The `/api/memory-size` route: validate, then delegate to
`set_memory_size`; on failure answer HTTP 400. -/
def set_memory_size_route (s : VoiceAssistant) (req : MemorySizeRequest) :
    Except Nat VoiceAssistant :=
  if req.is_custom then
    if req.size < 1 ∨ req.size > 100 then Except.error 400
    else Except.ok (set_memory_size s req.size.toNat req.is_custom req.api_key)
  else
    if req.size = 5 ∨ req.size = 10 ∨ req.size = 20 then
      Except.ok (set_memory_size s req.size.toNat req.is_custom req.api_key)
    else Except.error 400

/-- Whether a route result is a success (not an HTTP error). -/
def acceptsRequest : Except Nat VoiceAssistant → Bool
  | Except.ok _ => true
  | Except.error _ => false

/-- The `/api/process` route: run `process_conversation` and surface an
`"error"` result as HTTP status 400, success as 200. -/
def process_audio_route (s : VoiceAssistant) (timestamp : Nat)
    (transcript reply : String) : VoiceAssistant × Nat :=
  let r := process_conversation s timestamp transcript reply
  match r.2 with
  | Except.error _ => (r.1, 400)
  | Except.ok _ => (r.1, 200)

/-- The `/api/reset-custom-key` route: `reset_custom_key` followed by
`set_memory_size(5, False, None)`. -/
def reset_custom_key_route (s : VoiceAssistant) : VoiceAssistant :=
  set_memory_size (reset_custom_key s) 5 false none

/-! ### Helper lemmas -/

lemma renumberFrom_length (i : Nat) (l : List Turn) :
    (renumberFrom i l).length = l.length := by
  induction l generalizing i with
  | nil => rfl
  | cons c cs ih => simp [renumberFrom, ih]

lemma renumberFrom_map_id (i : Nat) (l : List Turn) :
    (renumberFrom i l).map Turn.id = List.range' (i + 1) l.length := by
  induction l generalizing i with
  | nil => rfl
  | cons c cs ih => simp [renumberFrom, ih, List.range'_succ]

lemma trimLoop_fst (ms : Nat) (convs : List Turn) (files : List String) :
    (trimLoop ms convs files).1 = convs.drop (convs.length - ms) := by
  induction convs generalizing files with
  | nil => simp [trimLoop]
  | cons c cs ih =>
    simp only [trimLoop]
    split
    · next hgt =>
      rw [ih]
      have h1 : cs.length + 1 - ms = (cs.length - ms) + 1 := by omega
      simp [List.length_cons, h1]
    · next hle =>
      have h0 : cs.length + 1 - ms = 0 := by omega
      simp [List.length_cons, h0]

lemma takeLast_suffix {α : Type} (n : Nat) (l : List α) :
    List.IsSuffix (takeLast n l) l := by
  unfold takeLast
  split
  · exact List.suffix_refl l
  · exact List.drop_suffix _ l

lemma takeLast_length_le {α : Type} (n : Nat) (l : List α) (h : n ≠ 0) :
    (takeLast n l).length ≤ n := by
  unfold takeLast
  rw [if_neg h, List.length_drop]
  omega

lemma trim_conversations_memory_size (s : VoiceAssistant) :
    (trim_conversations s).memory_size = s.memory_size := rfl

lemma trim_conversations_conversations (s : VoiceAssistant) :
    (trim_conversations s).conversations
      = s.conversations.drop (s.conversations.length - s.memory_size) := by
  simp [trim_conversations, trimLoop_fst]

lemma trim_conversations_len_le (s : VoiceAssistant) :
    (trim_conversations s).conversations.length ≤ (trim_conversations s).memory_size := by
  rw [trim_conversations_memory_size, trim_conversations_conversations, List.length_drop]
  omega

lemma trim_conversations_hist_le (s : VoiceAssistant) (h : 1 ≤ s.memory_size) :
    (trim_conversations s).conversation_history.length ≤ s.memory_size * 2 := by
  simp only [trim_conversations]
  split
  · exact takeLast_length_le _ _ (by omega)
  · omega

lemma trim_conversations_hist_suffix (s : VoiceAssistant) :
    List.IsSuffix (trim_conversations s).conversation_history s.conversation_history := by
  simp only [trim_conversations]
  split
  · exact takeLast_suffix _ _
  · exact List.suffix_refl _

lemma renumber_conversations_len (s : VoiceAssistant) :
    (renumber_conversations s).conversations.length = s.conversations.length := by
  simp [renumber_conversations, renumberFrom_length]

lemma set_memory_size_eq_trim (s : VoiceAssistant) (size : Nat) (is_custom : Bool)
    (api_key : Option String) :
    set_memory_size s size is_custom api_key =
      trim_conversations
        { s with memory_size := size, is_custom := is_custom,
                 custom_openai_client :=
                   if pyTruthy api_key then some (api_key.getD "")
                   else if is_custom then s.custom_openai_client else none } := by
  unfold set_memory_size
  cases hpk : pyTruthy api_key
  · cases is_custom <;> simp
  · simp

lemma renumber_conversations_hist (s : VoiceAssistant) :
    (renumber_conversations s).conversation_history = s.conversation_history := rfl

lemma renumber_conversations_ms (s : VoiceAssistant) :
    (renumber_conversations s).memory_size = s.memory_size := rfl

lemma windowInv_applyOp (s : VoiceAssistant) (op : Op)
    (h : s.conversations.length ≤ s.memory_size) :
    (applyOp s op).conversations.length ≤ (applyOp s op).memory_size := by
  cases op with
  | process t tr r =>
    simp only [applyOp, process_conversation]
    split
    · exact h
    · rw [renumber_conversations_ms, renumber_conversations_len]
      exact trim_conversations_len_le _
  | setMemorySize sz ic k =>
    simp only [applyOp, set_memory_size_eq_trim]
    exact trim_conversations_len_le _
  | setUseContext b => exact h
  | clearAll => exact Nat.zero_le _

lemma windowInv_runOps (ops : List Op) (s : VoiceAssistant)
    (h : s.conversations.length ≤ s.memory_size) :
    (runOps s ops).conversations.length ≤ (runOps s ops).memory_size := by
  induction ops generalizing s with
  | nil => exact h
  | cons op ops ih => exact ih _ (windowInv_applyOp s op h)

lemma histInv_applyOp (s : VoiceAssistant) (op : Op) (hv : validOp op = true)
    (h1 : 1 ≤ s.memory_size) (h2 : s.conversation_history.length ≤ s.memory_size * 2) :
    1 ≤ (applyOp s op).memory_size ∧
      (applyOp s op).conversation_history.length ≤ (applyOp s op).memory_size * 2 := by
  cases op with
  | process t tr r =>
    simp only [applyOp, process_conversation]
    split
    · exact ⟨h1, h2⟩
    · refine ⟨h1, ?_⟩
      rw [renumber_conversations_hist, renumber_conversations_ms, trim_conversations_memory_size]
      exact trim_conversations_hist_le _ h1
  | setMemorySize sz ic k =>
    have hsz : 1 ≤ sz := of_decide_eq_true hv
    simp only [applyOp, set_memory_size_eq_trim]
    refine ⟨?_, ?_⟩
    · rw [trim_conversations_memory_size]
      exact hsz
    · rw [trim_conversations_memory_size]
      exact trim_conversations_hist_le _ hsz
  | setUseContext b => exact ⟨h1, h2⟩
  | clearAll => exact ⟨h1, Nat.zero_le _⟩

lemma histInv_runOps (ops : List Op) (s : VoiceAssistant)
    (hv : ∀ op ∈ ops, validOp op = true)
    (h1 : 1 ≤ s.memory_size) (h2 : s.conversation_history.length ≤ s.memory_size * 2) :
    1 ≤ (runOps s ops).memory_size ∧
      (runOps s ops).conversation_history.length ≤ (runOps s ops).memory_size * 2 := by
  induction ops generalizing s with
  | nil => exact ⟨h1, h2⟩
  | cons op ops ih =>
    have h' := histInv_applyOp s op (hv op (by simp)) h1 h2
    exact ih _ (fun o ho => hv o (by simp [ho])) h'.1 h'.2

/-! ### Claim theorems -/

/-- Claim C1: over every sequence of operations on the assistant
(`process_conversation`, `set_memory_size`, `set_use_context`,
`clear_all`) starting from the global instance, the window length never
exceeds `memory_size`; and the eviction loop keeps exactly the suffix
of the window obtained by dropping the oldest turns from the front
(strict FIFO eviction). -/
theorem conversation_window_invariant (ops : List Op) :
    ((runOps initialAssistant ops).conversations.length
        ≤ (runOps initialAssistant ops).memory_size) ∧
    ∀ (ms : Nat) (convs : List Turn) (files : List String),
      (trimLoop ms convs files).1 = convs.drop (convs.length - ms) := by
  refine ⟨windowInv_runOps ops initialAssistant (by decide), ?_⟩
  intro ms convs files
  exact trimLoop_fst ms convs files

/-- Claim C2, counterexample: two successful turns give the window ids
`[1, 2]`; shrinking the capacity to 1 via `set_memory_size` evicts the
oldest turn but never renumbers, leaving the single remaining turn with
id 2, not the contiguous sequence `1..1 = [1]`. -/
theorem ids_not_contiguous_after_shrink :
    (runOps initialAssistant
      [Op.process 1 "hello" "hi", Op.process 2 "foo" "bar",
       Op.setMemorySize 1 true none]).conversations.map Turn.id = [2] ∧
    ¬ ((runOps initialAssistant
        [Op.process 1 "hello" "hi", Op.process 2 "foo" "bar",
         Op.setMemorySize 1 true none]).conversations.map Turn.id
      = List.range' 1 (runOps initialAssistant
          [Op.process 1 "hello" "hi", Op.process 2 "foo" "bar",
           Op.setMemorySize 1 true none]).conversations.length) := by
  constructor
  · decide
  · decide

/-- Claim C2 as amended: ids form the contiguous sequence `1..N` after
every successful `process_conversation` (which renumbers); a
`set_memory_size` that evicts turns does not renumber — it keeps the
surviving suffix of the window with its ids unchanged. -/
theorem ids_contiguous_after_process (s : VoiceAssistant) (t : Nat) (tr r : String)
    (htr : stripEmpty tr = false) (sz : Nat) (is_custom : Bool) (api_key : Option String) :
    ((process_conversation s t tr r).1.conversations.map Turn.id
      = List.range' 1 (process_conversation s t tr r).1.conversations.length) ∧
    (set_memory_size s sz is_custom api_key).conversations
      = s.conversations.drop (s.conversations.length - sz) := by
  constructor
  · simp only [process_conversation, htr, Bool.false_eq_true, if_false]
    show (renumber_conversations _).conversations.map Turn.id = _
    simp only [renumber_conversations, renumberFrom_map_id, renumberFrom_length, Nat.zero_add]
  · rw [set_memory_size_eq_trim, trim_conversations_conversations]

/-- Witness for `ids_contiguous_after_process` at a concrete turn. -/
theorem ids_contiguous_after_process_witness :
    stripEmpty "hello" = false ∧
    (process_conversation initialAssistant 3 "hello" "hi").1.conversations.map Turn.id
      = List.range' 1 (process_conversation initialAssistant 3 "hello" "hi").1.conversations.length :=
  ⟨by decide, (ids_contiguous_after_process initialAssistant 3 "hello" "hi" (by decide)
      5 false none).1⟩

/-- Claim C3: `clear_all` empties the turn window, the LLM message
history, and the audio directory. -/
theorem clear_all_clears_everything (s : VoiceAssistant) :
    (clear_all s).conversations = [] ∧
    (clear_all s).conversation_history = [] ∧
    (clear_all s).audio_files = [] :=
  ⟨rfl, rfl, rfl⟩

/-- Claim C8: `clear_all` is a frame on the settings: `memory_size`,
`use_context`, `is_custom` and the custom OpenAI client survive
unchanged. -/
theorem clear_all_preserves_settings (s : VoiceAssistant) :
    (clear_all s).memory_size = s.memory_size ∧
    (clear_all s).use_context = s.use_context ∧
    (clear_all s).is_custom = s.is_custom ∧
    (clear_all s).custom_openai_client = s.custom_openai_client :=
  ⟨rfl, rfl, rfl, rfl⟩

lemma fileRemove_fileWrite_self (p : String) (fs : List String) (h : p ∉ fs) :
    fileRemove p (fileWrite p fs) = fs := by
  unfold fileWrite fileRemove
  rw [if_neg h, List.filter_cons_of_neg (by simp)]
  exact List.filter_eq_self.mpr (fun a ha => by
    simp only [ne_eq, decide_eq_true_eq]
    exact fun e => h (e ▸ ha))

/-- Claim C4: the `/api/memory-size` route accepts a custom size exactly
when it lies in `[1, 100]`, accepts a preset size exactly when it is 5,
10 or 20, answers HTTP 400 otherwise, and forwards every accepted
request to `set_memory_size`. -/
theorem memory_size_route_validation (s : VoiceAssistant) (req : MemorySizeRequest) :
    (req.is_custom = true →
      (acceptsRequest (set_memory_size_route s req) = true ↔
        1 ≤ req.size ∧ req.size ≤ 100)) ∧
    (req.is_custom = false →
      (acceptsRequest (set_memory_size_route s req) = true ↔
        (req.size = 5 ∨ req.size = 10 ∨ req.size = 20))) ∧
    (acceptsRequest (set_memory_size_route s req) = true →
      set_memory_size_route s req =
        Except.ok (set_memory_size s req.size.toNat req.is_custom req.api_key)) ∧
    (acceptsRequest (set_memory_size_route s req) = false →
      set_memory_size_route s req = Except.error 400) := by
  obtain ⟨sz, ic, k⟩ := req
  cases ic with
  | false =>
    dsimp only
    by_cases hsz : sz = 5 ∨ sz = 10 ∨ sz = 20
    · have hr : set_memory_size_route s ⟨sz, false, k⟩
          = Except.ok (set_memory_size s sz.toNat false k) := by
        unfold set_memory_size_route
        rw [if_neg (by simp), if_pos hsz]
      refine ⟨?_, ?_, ?_, ?_⟩
      · intro hc
        exact absurd hc (by simp)
      · intro _
        rw [hr]
        exact iff_of_true rfl hsz
      · intro _
        exact hr
      · intro hf
        rw [hr] at hf
        exact absurd hf (by simp [acceptsRequest])
    · have hr : set_memory_size_route s ⟨sz, false, k⟩ = Except.error 400 := by
        unfold set_memory_size_route
        rw [if_neg (by simp), if_neg hsz]
      refine ⟨?_, ?_, ?_, ?_⟩
      · intro hc
        exact absurd hc (by simp)
      · intro _
        rw [hr]
        exact iff_of_false (by simp [acceptsRequest]) hsz
      · intro ha
        rw [hr] at ha
        exact absurd ha (by simp [acceptsRequest])
      · intro _
        exact hr
  | true =>
    dsimp only
    by_cases hsz : sz < 1 ∨ sz > 100
    · have hr : set_memory_size_route s ⟨sz, true, k⟩ = Except.error 400 := by
        unfold set_memory_size_route
        rw [if_pos rfl, if_pos hsz]
      refine ⟨?_, ?_, ?_, ?_⟩
      · intro _
        rw [hr]
        exact iff_of_false (by simp [acceptsRequest]) (by omega)
      · intro hc
        exact absurd hc (by simp)
      · intro ha
        rw [hr] at ha
        exact absurd ha (by simp [acceptsRequest])
      · intro _
        exact hr
    · have hr : set_memory_size_route s ⟨sz, true, k⟩
          = Except.ok (set_memory_size s sz.toNat true k) := by
        unfold set_memory_size_route
        rw [if_pos rfl, if_neg hsz]
      refine ⟨?_, ?_, ?_, ?_⟩
      · intro _
        rw [hr]
        exact iff_of_true rfl (by omega)
      · intro hc
        exact absurd hc (by simp)
      · intro _
        exact hr
      · intro hf
        rw [hr] at hf
        exact absurd hf (by simp [acceptsRequest])

/-- Witness for `memory_size_route_validation`: the custom size 7 is
accepted. -/
theorem memory_size_route_validation_witness :
    acceptsRequest (set_memory_size_route initialAssistant
      { size := 7, is_custom := true, api_key := none }) = true :=
  ((memory_size_route_validation initialAssistant
      { size := 7, is_custom := true, api_key := none }).1 rfl).mpr (by decide)

/-- Claim C5: a whitespace-only transcript makes `process_conversation`
answer the explicit `"No speech detected"` error (HTTP 400 through the
route), deletes the freshly written input file, creates no output file,
appends nothing to either list, and leaves all settings untouched. -/
theorem no_speech_state_unchanged (s : VoiceAssistant) (t : Nat) (tr reply : String)
    (h : stripEmpty tr = true) :
    (process_conversation s t tr reply).2 = Except.error "No speech detected" ∧
    (process_audio_route s t tr reply).2 = 400 ∧
    (process_conversation s t tr reply).1.conversations = s.conversations ∧
    (process_conversation s t tr reply).1.conversation_history = s.conversation_history ∧
    (process_conversation s t tr reply).1.memory_size = s.memory_size ∧
    (process_conversation s t tr reply).1.use_context = s.use_context ∧
    (process_conversation s t tr reply).1.is_custom = s.is_custom ∧
    (process_conversation s t tr reply).1.custom_openai_client = s.custom_openai_client ∧
    (process_conversation s t tr reply).1.audio_files
      = fileRemove (inputPath t) (fileWrite (inputPath t) s.audio_files) ∧
    (inputPath t ∉ s.audio_files →
      (process_conversation s t tr reply).1.audio_files = s.audio_files) := by
  have hp : process_conversation s t tr reply
      = ({ s with audio_files := fileRemove (inputPath t) (fileWrite (inputPath t) s.audio_files) },
         Except.error "No speech detected") := by
    simp [process_conversation, h]
  refine ⟨by rw [hp], by simp [process_audio_route, hp], by rw [hp], by rw [hp], by rw [hp],
    by rw [hp], by rw [hp], by rw [hp], by rw [hp], ?_⟩
  intro hin
  rw [hp]
  exact fileRemove_fileWrite_self _ _ hin

/-- Witness for `no_speech_state_unchanged` at a concrete whitespace
transcript. -/
theorem no_speech_state_unchanged_witness :
    stripEmpty " " = true ∧
    (process_conversation initialAssistant 7 " " "x").2
      = Except.error "No speech detected" :=
  ⟨by decide, (no_speech_state_unchanged initialAssistant 7 " " "x" (by decide)).1⟩

lemma get_ai_response_ms (s : VoiceAssistant) (text reply : String) :
    (get_ai_response s text reply).1.memory_size = s.memory_size := rfl

lemma get_ai_response_hist (s : VoiceAssistant) (text reply : String) :
    (get_ai_response s text reply).1.conversation_history =
      if (s.conversation_history
            ++ [({ role := "user", content := text } : Message),
                ({ role := "assistant", content := reply } : Message)]).length
          > s.memory_size * 2
      then takeLast (s.memory_size * 2)
        (s.conversation_history
          ++ [({ role := "user", content := text } : Message),
              ({ role := "assistant", content := reply } : Message)])
      else s.conversation_history
        ++ [({ role := "user", content := text } : Message),
            ({ role := "assistant", content := reply } : Message)] := rfl

lemma set_memory_size_ms (s : VoiceAssistant) (sz : Nat) (ic : Bool) (k : Option String) :
    (set_memory_size s sz ic k).memory_size = sz := by
  rw [set_memory_size_eq_trim, trim_conversations_memory_size]

lemma set_memory_size_hist (s : VoiceAssistant) (sz : Nat) (ic : Bool) (k : Option String) :
    (set_memory_size s sz ic k).conversation_history =
      if s.conversation_history.length > sz * 2
      then takeLast (sz * 2) s.conversation_history
      else s.conversation_history := by
  rw [set_memory_size_eq_trim]
  rfl

/-- Claim C6: the `messages` list sent to the chat completion is exactly
the system prompt followed by the user message when context is off, and
the system prompt, the whole stored history (bounded by 2×`memory_size`
along every validated run), then the user message when context is on. -/
theorem llm_context_usage (s : VoiceAssistant) (text reply : String) (ops : List Op) :
    (s.use_context = false →
      (get_ai_response s text reply).2
        = [systemPrompt, { role := "user", content := text }]) ∧
    (s.use_context = true →
      (get_ai_response s text reply).2
        = [systemPrompt] ++ s.conversation_history
            ++ [{ role := "user", content := text }]) ∧
    (s.conversation_history.length ≤ 2 * s.memory_size →
      (get_ai_response s text reply).2.length ≤ 2 * s.memory_size + 2) ∧
    ((∀ op ∈ ops, validOp op = true) →
      (runOps initialAssistant ops).conversation_history.length
        ≤ 2 * (runOps initialAssistant ops).memory_size) := by
  refine ⟨?_, ?_, ?_, ?_⟩
  · intro h
    simp [get_ai_response, h]
  · intro h
    simp [get_ai_response, h]
  · intro h
    cases hctx : s.use_context
    · simp [get_ai_response, hctx]
    · simp [get_ai_response, hctx]
      omega
  · intro hv
    have h := histInv_runOps ops initialAssistant hv (by decide) (by decide)
    omega

/-- Witness for `llm_context_usage`: with context off from the start, a
call sends only the system prompt and the user message. -/
theorem llm_context_usage_witness :
    (get_ai_response initialAssistant "hi" "ok").2
      = [systemPrompt, { role := "user", content := "hi" }] :=
  (llm_context_usage initialAssistant "hi" "ok" []).1 rfl

/-- Claim C7: both operations that touch the LLM message history keep it
within 2×`memory_size` entries and keep only a suffix (the most recent
entries, in order) of what the pre-trim history was. -/
theorem llm_history_window_invariant (s : VoiceAssistant) (text reply : String)
    (sz : Nat) (is_custom : Bool) (api_key : Option String)
    (hms : 1 ≤ s.memory_size) (hsz : 1 ≤ sz) :
    ((get_ai_response s text reply).1.conversation_history.length
        ≤ 2 * (get_ai_response s text reply).1.memory_size ∧
      List.IsSuffix (get_ai_response s text reply).1.conversation_history
        (s.conversation_history
          ++ [{ role := "user", content := text },
              { role := "assistant", content := reply }])) ∧
    ((set_memory_size s sz is_custom api_key).conversation_history.length
        ≤ 2 * (set_memory_size s sz is_custom api_key).memory_size ∧
      List.IsSuffix (set_memory_size s sz is_custom api_key).conversation_history
        s.conversation_history) := by
  refine ⟨⟨?_, ?_⟩, ?_, ?_⟩
  · rw [get_ai_response_ms, get_ai_response_hist]
    split
    · exact le_trans (takeLast_length_le _ _ (by omega)) (by omega)
    · next hle => omega
  · rw [get_ai_response_hist]
    split
    · exact takeLast_suffix _ _
    · exact List.suffix_refl _
  · rw [set_memory_size_ms, set_memory_size_hist]
    split
    · exact le_trans (takeLast_length_le _ _ (by omega)) (by omega)
    · next hle => omega
  · rw [set_memory_size_hist]
    split
    · exact takeLast_suffix _ _
    · exact List.suffix_refl _

/-- Witness for `llm_history_window_invariant` at a concrete call. -/
theorem llm_history_window_invariant_witness :
    (get_ai_response initialAssistant "q" "a").1.conversation_history.length
      ≤ 2 * (get_ai_response initialAssistant "q" "a").1.memory_size :=
  ((llm_history_window_invariant initialAssistant "q" "a" 5 false none
    (by decide) (by decide)).1).1

lemma pair_suffix_hist (s : VoiceAssistant) (text reply : String)
    (hms : 1 ≤ s.memory_size) :
    List.IsSuffix
      [{ role := "user", content := text }, { role := "assistant", content := reply }]
      (get_ai_response s text reply).1.conversation_history := by
  rw [get_ai_response_hist]
  split
  · unfold takeLast
    rw [if_neg (by omega), List.drop_append_of_le_length (by simp; omega)]
    exact List.suffix_append _ _
  · exact List.suffix_append _ _

/-- Claim C9: a successful turn appends the user/assistant pair to the
history independently of the context flag, the pair survives trimming,
and it therefore appears inside the messages of a later LLM call made
with context enabled. -/
theorem history_appended_regardless_of_context (s : VoiceAssistant)
    (text reply next_text next_reply : String) (hms : 1 ≤ s.memory_size) :
    ((get_ai_response (set_use_context s true) text reply).1.conversation_history
      = (get_ai_response (set_use_context s false) text reply).1.conversation_history) ∧
    List.IsSuffix
      [{ role := "user", content := text }, { role := "assistant", content := reply }]
      (get_ai_response s text reply).1.conversation_history ∧
    List.IsInfix
      [{ role := "user", content := text }, { role := "assistant", content := reply }]
      (get_ai_response
        (set_use_context (get_ai_response s text reply).1 true)
        next_text next_reply).2 := by
  refine ⟨rfl, pair_suffix_hist s text reply hms, ?_⟩
  obtain ⟨p, hp⟩ := pair_suffix_hist s text reply hms
  refine ⟨[systemPrompt] ++ p, [{ role := "user", content := next_text }], ?_⟩
  show ([systemPrompt] ++ p)
      ++ [{ role := "user", content := text }, { role := "assistant", content := reply }]
      ++ [{ role := "user", content := next_text }]
    = [systemPrompt] ++ (get_ai_response s text reply).1.conversation_history
      ++ [{ role := "user", content := next_text }]
  rw [← hp]
  simp

/-- Witness for `history_appended_regardless_of_context` at a concrete
pair of turns. -/
theorem history_appended_regardless_of_context_witness :
    (get_ai_response (set_use_context initialAssistant true) "q" "a").1.conversation_history
      = (get_ai_response (set_use_context initialAssistant false) "q" "a").1.conversation_history :=
  (history_appended_regardless_of_context initialAssistant "q" "a" "q2" "a2" (by decide)).1

/-- Claim C10: the `/api/reset-custom-key` route clears the key override
and also resets the memory size to 5, trimming the window to at most 5
turns (keeping the newest, FIFO) and the message history to at most 10
entries. -/
theorem reset_custom_key_route_resets_memory (s : VoiceAssistant) :
    (reset_custom_key_route s).custom_openai_client = none ∧
    (reset_custom_key_route s).is_custom = false ∧
    (reset_custom_key_route s).memory_size = 5 ∧
    (reset_custom_key_route s).conversations.length ≤ 5 ∧
    (reset_custom_key_route s).conversation_history.length ≤ 10 ∧
    (reset_custom_key_route s).conversations
      = s.conversations.drop (s.conversations.length - 5) := by
  unfold reset_custom_key_route
  refine ⟨?_, ?_, ?_, ?_, ?_, ?_⟩
  · rw [set_memory_size_eq_trim]
    rfl
  · rw [set_memory_size_eq_trim]
    rfl
  · exact set_memory_size_ms _ _ _ _
  · rw [set_memory_size_eq_trim]
    exact le_trans (trim_conversations_len_le _)
      (Nat.le_of_eq (trim_conversations_memory_size _))
  · rw [set_memory_size_eq_trim]
    refine trim_conversations_hist_le _ ?_
    show (1 : Nat) ≤ 5
    omega
  · rw [set_memory_size_eq_trim, trim_conversations_conversations]
    rfl
